import Mathlib

/-!
# Verification of solid-effect-query against its specification

Shallow embedding of the query/mutation adapter layer of the
`solid-effect-query` repository: the infinite-query hook
(`makeCreateEffectInfiniteQuery`), the typed HTTP-endpoint factory
(`makeHttpApiQuery` / `makeHttpApiMutation`) and the typed RPC factory
(`makeRpcHooks` / `createRpcQuery`), together with the fragments of the
external `effect` library semantics those functions rely on
(`Cause.failureOrCause`, `Either.getLeft`, `Runtime.runPromise`,
`Runtime.runPromiseExit`).

JavaScript runtime values are modelled by the inductive type `Val`;
structured failure data by `CauseV`; terminal outcomes by `ExitG`;
values thrown across the promise boundary by `JsThrow`.
-/

/-- A JavaScript runtime value, as far as the adapter code inspects one:
strings, numbers, booleans, `null`/`undefined`, and plain objects
represented as an ordered field list (`objNil` is `{}`, `objCons k v rest`
is the object `rest` extended with a first field `k: v`). -/
inductive Val where
  | str : String → Val
  | num : Int → Val
  | boolV : Bool → Val
  | nullV : Val
  | undef : Val
  | objNil : Val
  | objCons : String → Val → Val → Val
deriving DecidableEq, Repr

/-- JavaScript truthiness, used by the HTTP factory's key builder
(`path ? ["path", path] : []`): `0`, `""`, `false`, `null` and
`undefined` are falsy; every object is truthy. -/
def Val.truthy : Val → Bool
  | .str s => s ≠ ""
  | .num n => n ≠ 0
  | .boolV b => b
  | .nullV => false
  | .undef => false
  | .objNil => true
  | .objCons _ _ _ => true

/-- Field lookup on an object value (`v[key]`); `none` on non-objects
and missing fields. -/
def Val.getField : Val → String → Option Val
  | .objCons k v rest, key => if k = key then some v else rest.getField key
  | _, _ => none

/-- The effect library's `Option.some(v)` object `{ _tag: "Some", value: v }`. -/
def mkSome (v : Val) : Val :=
  Val.objCons "_tag" (Val.str "Some") (Val.objCons "value" v Val.objNil)

/-- The effect library's `Option.none()` object `{ _tag: "None" }`. -/
def mkNone : Val := Val.objCons "_tag" (Val.str "None") Val.objNil

/-- Structured failure data of a completed effect run (`Cause.Cause` from
the effect library): expected failure, defect (`die`), interruption, and
the sequential/parallel aggregations. -/
inductive CauseV where
  | failC : Val → CauseV
  | dieC : Val → CauseV
  | interruptC : CauseV
  | sequentialC : CauseV → CauseV → CauseV
  | parallelC : CauseV → CauseV → CauseV
deriving DecidableEq, Repr

/-- The expected failures contained in a cause, left to right
(`Cause.failures`). -/
def CauseV.failuresOf : CauseV → List Val
  | .failC e => [e]
  | .dieC _ => []
  | .interruptC => []
  | .sequentialC a b => a.failuresOf ++ b.failuresOf
  | .parallelC a b => a.failuresOf ++ b.failuresOf

/-- Whether a cause contains a defect (`Cause.isDie` on some node). -/
def CauseV.hasDefect : CauseV → Bool
  | .failC _ => false
  | .dieC _ => true
  | .interruptC => false
  | .sequentialC a b => a.hasDefect || b.hasDefect
  | .parallelC a b => a.hasDefect || b.hasDefect

/-- The first expected failure of a cause, if any (`Cause.failureOption`). -/
def CauseV.firstFailure (c : CauseV) : Option Val := c.failuresOf.head?

/-- `Either` values as the adapter code consumes them from
`Cause.failureOrCause`: `left` carries an expected failure, `right`
carries a failure-free cause. -/
inductive EitherV where
  | left : Val → EitherV
  | right : CauseV → EitherV
deriving DecidableEq, Repr

/-- `Either.isRight`. -/
def EitherV.isRight : EitherV → Bool
  | .left _ => false
  | .right _ => true

/-- `Either.isLeft`. -/
def EitherV.isLeft : EitherV → Bool
  | .left _ => true
  | .right _ => false

/-- `Either.getLeft` from the effect library: converts an `Either` to an
`Option`, discarding the `Right` value. Note the result is an **Option
object**, not the bare left value. -/
def EitherV.getLeft : EitherV → Val
  | .left v => mkSome v
  | .right _ => mkNone

/-- `Cause.failureOrCause`: `Left` of the first expected failure when the
cause contains one, otherwise `Right` of the (failure-free) cause itself. -/
def failureOrCause (c : CauseV) : EitherV :=
  match c.firstFailure with
  | some e => .left e
  | none => .right c

/-- Terminal outcome of running an effect (`Exit`): success value or cause. -/
inductive ExitG (α : Type) where
  | success : α → ExitG α
  | failure : CauseV → ExitG α
deriving DecidableEq, Repr

abbrev ExitV := ExitG Val

/-- `Exit.isFailure`. -/
def ExitG.isFailure {α : Type} : ExitG α → Bool
  | .success _ => false
  | .failure _ => true

/-- A value thrown across the promise boundary: either a plain JavaScript
value, a `Cause` object, or the `FiberFailure` `Error` that
`Runtime.runPromise` constructs around a cause on failure.
`FiberFailure` is an `Error` instance, not a `Cause`. -/
inductive JsThrow where
  | val : Val → JsThrow
  | causeJs : CauseV → JsThrow
  | fiberFailureJs : CauseV → JsThrow
deriving DecidableEq, Repr

/-- `Cause.isCause` applied to a thrown value: only actual `Cause`
objects satisfy it; in particular a `FiberFailure` does not. -/
def JsThrow.isCauseJs : JsThrow → Bool
  | .val _ => false
  | .causeJs _ => true
  | .fiberFailureJs _ => false

/-- Settled state of the promise a synthesized `queryFn` / `mutationFn`
hands to the query-cache library. -/
inductive PromiseResult where
  | resolved : Val → PromiseResult
  | resolvedExit : ExitV → PromiseResult
  | rejected : JsThrow → PromiseResult
deriving DecidableEq, Repr

/-- Whether the promise settled by rejecting. -/
def PromiseResult.isRejected : PromiseResult → Bool
  | .rejected _ => true
  | _ => false

/-- A minimal effect language: just enough structure to run the adapter
code paths (success, expected failure, defect, sequencing). -/
inductive EffectM where
  | succeedE : Val → EffectM
  | failE : Val → EffectM
  | dieE : Val → EffectM
  | andThenE : EffectM → EffectM → EffectM
deriving DecidableEq, Repr

/-- Running an effect to its `Exit` (`Runtime.runPromiseExit` resolves
with this value). -/
def runExitM : EffectM → ExitV
  | .succeedE v => .success v
  | .failE e => .failure (.failC e)
  | .dieE d => .failure (.dieC d)
  | .andThenE a b =>
    match runExitM a with
    | .success _ => runExitM b
    | .failure c => .failure c

/-- `Runtime.runPromise` (also `ManagedRuntime.runPromise`): resolves
with the success value; on any failure it rejects with a `FiberFailure`
`Error` wrapping the cause — it never rejects with the raw `Cause`. -/
def runPromiseM (e : EffectM) : PromiseResult :=
  match runExitM e with
  | .success v => .resolved v
  | .failure c => .rejected (.fiberFailureJs c)

/-!
## Infinite-query hook (`makeCreateEffectInfiniteQuery`)

Embeds the `queryFn` wrapper and the `throwOnError` translation of
`create-effect-infinite-query.ts` (src/unnamed/part_003, lines 58-96).
-/

/-- The per-page `queryFn` synthesized by `makeCreateEffectInfiniteQuery`
(lines 58-81): runs the page effect to an `Exit` with
`Runtime.runPromiseExit`; on success resolves with the value; on failure,
when `throwOnDefect` is set it inspects `Cause.failureOrCause` — a
`Right` (defect or interruption) throws the original cause, a `Left`
(expected failure) throws `Either.getLeft(failureOrCause)`; without
`throwOnDefect` it always throws the full cause. -/
def infiniteQueryFn (throwOnDefect : Bool) (pageEffect : EffectM) : PromiseResult :=
  match runExitM pageEffect with
  | .success v => .resolved v
  | .failure cause =>
    if throwOnDefect then
      let foc := failureOrCause cause
      if foc.isRight then .rejected (.causeJs cause)
      else .rejected (.val foc.getLeft)
    else .rejected (.causeJs cause)

/-- The `throwOnError` field a caller may place in the infinite-query
options: absent, a boolean, or a predicate on the rejected error. -/
inductive ThrowOnErrorOpt where
  | absent : ThrowOnErrorOpt
  | boolOpt : Bool → ThrowOnErrorOpt
  | predOpt : (JsThrow → Bool) → ThrowOnErrorOpt

/-- The wrapper `makeCreateEffectInfiniteQuery` installs around a caller
`throwOnError` predicate (lines 84-93): when `throwOnDefect` is set and
the rejected error is a `Cause`, it inspects `Cause.failureOrCause` — a
`Left` invokes the caller's predicate on `Either.getLeft(failureOrCause)`,
a `Right` returns `true` (defects always rethrow); otherwise the caller's
predicate receives the error unchanged. -/
def wrapThrowOnErrorPred (throwOnDefect : Bool) (f : JsThrow → Bool)
    (error : JsThrow) : Bool :=
  if throwOnDefect && error.isCauseJs then
    match error with
    | .causeJs c =>
      let foc := failureOrCause c
      if foc.isLeft then f (.val foc.getLeft) else true
    | e => f e
  else f error

/-- The `throwOnError` value the infinite-query hook hands to the
query-cache library (lines 82-95): `false` when the caller's option is
absent or falsy, the wrapped predicate when it is a function, and the
boolean itself otherwise. -/
def synthThrowOnError (throwOnDefect : Bool) (t : ThrowOnErrorOpt) : ThrowOnErrorOpt :=
  match t with
  | .absent => .boolOpt false
  | .boolOpt false => .boolOpt false
  | .boolOpt true => .boolOpt true
  | .predOpt f => .predOpt (wrapThrowOnErrorPred throwOnDefect f)

/-!
## Typed HTTP-endpoint factory (`makeHttpApiQuery` / `makeHttpApiMutation`)

Embeds `packages/solid-effect-query-http-api/src/factory.ts`.
-/

/-- The request-shaped parameters a call may supply
(`{path, urlParams, payload, headers}`); `none` models an absent field. -/
structure HttpParams where
  path : Option Val
  urlParams : Option Val
  payload : Option Val
  headers : Option Val
deriving DecidableEq, Repr

/-- One field's contribution to the query key (factory.ts lines 161-166):
the spread `...(path ? ["path", path] : [])` — a label/value pair when the
supplied value is truthy, nothing when the field is absent **or falsy**. -/
def fieldSegment (label : String) (v : Option Val) : List Val :=
  match v with
  | some x => if x.truthy then [Val.str label, x] else []
  | none => []

/-- The cache key synthesized by `makeHttpApiQuery` (factory.ts lines
157-167): the fixed prefix `["httpApi", group, endpoint]` followed by the
label/value segments of `path`, `urlParams`, `payload`, `headers` in that
declared order. -/
def httpQueryKey (group endpoint : String) (p : HttpParams) : List Val :=
  [Val.str "httpApi", Val.str group, Val.str endpoint]
    ++ fieldSegment "path" p.path
    ++ fieldSegment "urlParams" p.urlParams
    ++ fieldSegment "payload" p.payload
    ++ fieldSegment "headers" p.headers

/-- Normalization implied by the key builder's truthiness test: a field
supplied with a falsy value contributes nothing, exactly like an absent
field. -/
def normField (v : Option Val) : Option Val :=
  match v with
  | some x => if x.truthy then some x else none
  | none => none

/-- Field-wise normalization of the supplied parameters. -/
def normalizeParams (p : HttpParams) : HttpParams :=
  ⟨normField p.path, normField p.urlParams, normField p.payload, normField p.headers⟩

/-- Reads one label/value segment back off the front of a key suffix. -/
def parseField (label : String) (l : List Val) : Option Val × List Val :=
  match l with
  | (Val.str s) :: x :: rest => if s = label then (some x, rest) else (none, l)
  | _ => (none, l)

/-- Recovers the normalized parameters from the part of the key after the
fixed prefix. -/
def parseKeySuffix (l : List Val) : HttpParams :=
  let (p, l1) := parseField "path" l
  let (u, l2) := parseField "urlParams" l1
  let (y, l3) := parseField "payload" l2
  let (h, _) := parseField "headers" l3
  ⟨p, u, y, h⟩

/-- The per-call options record `makeHttpApiMutation` accepts
(`UseHttpApiMutationOpts`, factory.ts lines 35-42): the mandatory
`runtime` plus the mutation policy fields it passes through unmodified
(`onSuccess`, `retry`, ... — opaque here). The type omits `mutationFn`
and carries no request-shaped fields. -/
structure HttpMutationOpts where
  runtime : Nat
  policy : List (String × Val)
deriving DecidableEq, Repr

/-- The `variables` object handed to `mutate`/`mutateAsync`. -/
structure MutationVariables where
  path : Option Val
  urlParams : Option Val
  payload : Option Val
  headers : Option Val
deriving DecidableEq, Repr

/-- The request the synthesized endpoint call receives. -/
structure HttpRequest where
  path : Option Val
  urlParams : Option Val
  payload : Option Val
  headers : Option Val
deriving DecidableEq, Repr

/-- The request assembled inside the synthesized `mutationFn`
(factory.ts lines 327-340): every field is read off the `variables`
argument (`variables.path`, `variables.urlParams`, `variables.payload`,
`variables.headers`); the options record is consulted only for the
runtime the effect is run under. -/
def httpMutationFnRequest (opts : HttpMutationOpts) (v : MutationVariables) :
    HttpRequest :=
  let _runtime := opts.runtime
  ⟨v.path, v.urlParams, v.payload, v.headers⟩

/-- The record `makeHttpApiMutation` hands to the query-cache library
(factory.ts lines 321-343): `const { runtime, ...mutationOpts } = opts`
spreads everything but `runtime` through, and adds the synthesized
`mutationFn` which runs under `opts.runtime`. -/
structure SynthesizedMutationRecord where
  passedThrough : List (String × Val)
  usedRuntime : Nat
  requestOf : MutationVariables → HttpRequest

/-- Builds the synthesized mutation record from the per-call options. -/
def makeHttpApiMutationRecord (opts : HttpMutationOpts) : SynthesizedMutationRecord :=
  { passedThrough := opts.policy
  , usedRuntime := opts.runtime
  , requestOf := fun v => httpMutationFnRequest opts v }

/-!
### Factory-level client construction (`makeHttpApiQuery`, lines 58-63 and 172-187)
-/

/-- The connection options captured at factory-construction time. -/
structure ConnOptions where
  baseUrl : String
  transformClient : Option Val
deriving DecidableEq, Repr

/-- The factory value returned by `makeHttpApiQuery`: it closes over the
single `clientEffect = HttpApiClient.make(api, options)` built from the
construction-time options (factory.ts lines 59-63). -/
structure HttpQueryFactory where
  clientOptions : ConnOptions
deriving DecidableEq, Repr

/-- `makeHttpApiQuery`'s capture of its connection options. -/
def makeHttpApiQueryFactory (o : ConnOptions) : HttpQueryFactory := ⟨o⟩

/-- A constructed client capability, determined by the connection options
it was built from. -/
structure ClientV where
  options : ConnOptions
deriving DecidableEq, Repr

/-- Executing the factory's `clientEffect`: builds a client from the
captured options. `HttpApiClient.make` returns a plain effect — running
it performs the construction, so each execution is counted as a fresh
build (`builds` threads the count). -/
def runClientEffect (f : HttpQueryFactory) (builds : Nat) : ClientV × Nat :=
  (⟨f.clientOptions⟩, builds + 1)

/-- One invocation of the synthesized `queryFn` (factory.ts lines
172-186): `yield* clientEffect` executes the client-construction effect
anew, then the endpoint is called on the resulting client. -/
def runHttpQueryInvocation (f : HttpQueryFactory) (builds : Nat) : ClientV × Nat :=
  runClientEffect f builds

/-- Client builds performed after `n` invocations of the synthesized
`queryFn`, starting from a fresh factory. -/
def buildsAfter (f : HttpQueryFactory) : Nat → Nat
  | 0 => 0
  | n + 1 => (runHttpQueryInvocation f (buildsAfter f n)).2

/-- The promise produced by the synthesized `queryFn` of
`makeHttpApiQuery` (factory.ts lines 172-186): the client-construction
effect sequenced with the endpoint call, run with
`runtime.runPromise` — not `runPromiseExit`, and with no cause
translation. -/
def httpApiQueryFnPromise (clientEffect endpointCall : EffectM) : PromiseResult :=
  runPromiseM (.andThenE clientEffect endpointCall)

/-!
## Typed RPC factory (`makeRpcHooks` / `createRpcQuery`)

Embeds `packages/solid-effect-query-rpc/src/rpc.ts` (concatenated into
`example-clean.tsx`, lines 542-583 and 637-669).
-/

/-- The cache key synthesized by `useRpcQuery` (line 558):
`[tag, currentPayload]`. -/
def useRpcQueryKey (tag : String) (payload : Val) : List Val :=
  [Val.str tag, payload]

/-- The cache key synthesized by the direct-form `createRpcQuery`
(line 662): also `[tag, currentPayload]`. -/
def createRpcQueryKey (tag : String) (payload : Val) : List Val :=
  [Val.str tag, payload]

/-- An RPC client service as located through its dependency-injection
tag: the single callable `(procedureName, payload) -> Effect`. -/
structure RpcService where
  call : String → Val → ExitV

/-- A dependency-injection context: tag keys bound to services. -/
abbrev RpcContext := List (String × RpcService)

/-- Tag resolution against the context. -/
def lookupTag (ctx : RpcContext) (key : String) : Option RpcService :=
  match ctx with
  | [] => none
  | (k, s) :: rest => if k = key then some s else lookupTag rest key

/-- The `{ _tag: "NoSuchElementException" }` failure raised when a
service tag cannot be resolved. -/
def noSuchElementVal : Val :=
  Val.objCons "_tag" (Val.str "NoSuchElementException") Val.objNil

/-- `yield* clientTag`: succeeds with the bound service, otherwise fails
with `NoSuchElementException`. -/
def getServiceExit (ctx : RpcContext) (key : String) : ExitG RpcService :=
  match lookupTag ctx key with
  | some s => .success s
  | none => .failure (.failC noSuchElementVal)

/-- The `Effect.catchTag("NoSuchElementException", ...)` step of
`useRpcQuery`'s `queryFn` (example-clean.tsx lines 565-569): a matching
expected failure is logged and converted into
`Effect.die("TasksClient service not found")`. -/
def catchNoSuchElement (e : ExitG RpcService) : ExitG RpcService :=
  match e with
  | .failure (.failC v) =>
    if v.getField "_tag" = some (Val.str "NoSuchElementException") then
      .failure (.dieC (Val.str "TasksClient service not found"))
    else e
  | _ => e

/-- The body of `useRpcQuery`'s `queryFn` (example-clean.tsx lines
560-580): resolve the client service from the context (converting a
resolution failure into a defect), then invoke
`service.client(tag, payload)`. -/
def rpcQueryFnExit (ctx : RpcContext) (tagKey : String) (procName : String)
    (payload : Val) : ExitV :=
  match catchNoSuchElement (getServiceExit ctx tagKey) with
  | .success svc => svc.call procName payload
  | .failure c => .failure c

/-!
## Effect-to-Promise adapter and scope teardown (core hooks)

The core package's hook implementation (`index.layer.ts` / `hooks.ts` of
`solid-effect-query`) is not among the sources; only its test suite is.
The two definitions below are therefore modelled from the specification
and settle the claims that depend on that file.
-/

/-- The two completion modes of the Effect-to-Promise Execution Adapter. -/
inductive ToPromiseMode where
  | exitMode : ToPromiseMode
  | causeRejecting : ToPromiseMode
deriving DecidableEq, Repr

/-- Modelled from the spec: `toPromise(runtime, effect, { mode })` of the
Effect-to-Promise Execution Adapter (spec §4.1), whose implementation
(`index.layer.ts` of the core package) is missing from the sources. In
`"exit"` mode it never rejects and always resolves with the `Exit`; in
`"cause-rejecting"` mode it resolves with the success value and rejects
with the full `Cause` on any non-success exit. -/
def toPromiseM (mode : ToPromiseMode) (e : EffectM) : PromiseResult :=
  match mode, runExitM e with
  | .exitMode, ex => .resolvedExit ex
  | .causeRejecting, .success v => .resolved v
  | .causeRejecting, .failure c => .rejected (.causeJs c)

/-- Modelled from the spec: the mutation hook's `mutateAsync`-style entry
point (spec §4.1 "exit" mode and §4.3), whose implementation is missing
from the sources — it runs the mutation effect through the adapter in
exit-capturing mode, so awaiting it yields the raw `Exit`. -/
def mutateAsyncM (e : EffectM) : PromiseResult := toPromiseM .exitMode e

/-- The reactive scope owning an in-flight query fetch: whether a fetch
is in flight, and the `onInterrupt` handlers its `queryFn` registered. -/
structure QueryScope where
  inFlight : Bool
  interruptHandlers : List String
deriving DecidableEq, Repr

/-- Observable events while a scope is torn down. -/
inductive TeardownEvent where
  | interruptFiber : TeardownEvent
  | runHandler : String → TeardownEvent
  | teardownComplete : TeardownEvent
deriving DecidableEq, Repr

/-- Modelled from the spec: unmount/cancellation of the query hook (spec
§4.3 and P6), whose implementation (`index.layer.ts` of the core package)
is missing from the sources. Tearing down the owning reactive scope while
a fetch is in flight interrupts the underlying effect cooperatively and
runs every registered `onInterrupt` handler to completion before the
teardown finishes. -/
def teardownTrace (s : QueryScope) : List TeardownEvent :=
  (if s.inFlight then
    TeardownEvent.interruptFiber :: s.interruptHandlers.map TeardownEvent.runHandler
   else [])
  ++ [TeardownEvent.teardownComplete]

/-- A sample caller `throwOnError` predicate: rethrow exactly when the
rejected error is the bare business error `"E"`. -/
def samplePred (e : JsThrow) : Bool := e = JsThrow.val (Val.str "E")

/-!
## Supporting lemmas
-/

/-- A field segment only depends on the normalized field value. -/
theorem fieldSegment_normField (label : String) (v : Option Val) :
    fieldSegment label (normField v) = fieldSegment label v := by
  rcases v with _ | x
  · rfl
  · simp only [normField, fieldSegment]
    split_ifs with h <;> simp [fieldSegment, h]

/-- The synthesized key is invariant under normalization of the supplied
parameters. -/
theorem httpQueryKey_normalize (g e : String) (p : HttpParams) :
    httpQueryKey g e (normalizeParams p) = httpQueryKey g e p := by
  simp [httpQueryKey, normalizeParams, fieldSegment_normField]

/-- Parsing the key suffix recovers the normalized field values. -/
theorem parseKeySuffix_fieldSegments (a b c d : Option Val) :
    parseKeySuffix (fieldSegment "path" a ++ fieldSegment "urlParams" b
        ++ fieldSegment "payload" c ++ fieldSegment "headers" d)
      = ⟨normField a, normField b, normField c, normField d⟩ := by
  rcases a with _ | x <;> rcases b with _ | u <;> rcases c with _ | y <;>
    rcases d with _ | w <;>
    simp only [fieldSegment, normField] <;>
    (try split_ifs) <;> rfl

/-- The part of the key after the fixed three-element prefix. -/
theorem httpQueryKey_drop_three (g e : String) (p : HttpParams) :
    (httpQueryKey g e p).drop 3
      = fieldSegment "path" p.path ++ fieldSegment "urlParams" p.urlParams
        ++ fieldSegment "payload" p.payload ++ fieldSegment "headers" p.headers := by
  rfl

/-!
## Claim theorems
-/

/-- C1 (code bug): in the infinite-query hook with `throwOnDefect: true`,
a page effect failing with only the expected error `"E"` makes the
synthesized promise reject with the **`Option` object**
`Either.getLeft(failureOrCause)` — that is `{ _tag: "Some", value: "E" }`,
not the bare value `"E"` the claim (and the code's own comment
"throw the error") require; the defect branch does reject with the raw
cause. Evaluation of the embedded code at the failing input. -/
theorem c1_infinite_throwOnDefect_rejects_wrapped_option :
    infiniteQueryFn true (.failE (Val.str "E"))
        = .rejected (.val (mkSome (Val.str "E")))
    ∧ mkSome (Val.str "E") ≠ Val.str "E"
    ∧ infiniteQueryFn true (.dieE (Val.str "boom"))
        = .rejected (.causeJs (.dieC (Val.str "boom"))) := by
  decide

/-- C2 (code bug): the HTTP-endpoint factory's synthesized `queryFn`
runs the endpoint effect with `runtime.runPromise`, so on failure the
promise rejects with a `FiberFailure` `Error` wrapping the cause — which
`Cause.isCause` does not recognise — rather than with the raw `Cause`
object the claim (and the factory's own declared
`UseQueryResult<_, Cause.Cause<...>>` error type) require. Evaluation of
the embedded code at failing inputs (expected error and defect). -/
theorem c2_http_queryFn_rejects_fiberFailure_not_cause :
    httpApiQueryFnPromise (.succeedE Val.objNil) (.failE (Val.str "NotFound"))
        = .rejected (.fiberFailureJs (.failC (Val.str "NotFound")))
    ∧ JsThrow.isCauseJs (.fiberFailureJs (.failC (Val.str "NotFound"))) = false
    ∧ httpApiQueryFnPromise (.succeedE Val.objNil) (.dieE (Val.str "crash"))
        = .rejected (.fiberFailureJs (.dieC (Val.str "crash")))
    ∧ JsThrow.isCauseJs (.fiberFailureJs (.dieC (Val.str "crash"))) = false := by
  decide

/-- C3: both `useRpcQuery` and `createRpcQuery` synthesize the cache key
as exactly the two-element tuple `(procedureName, currentPayload)`; for a
fixed procedure, keys are equal precisely when the payloads are
(structurally) equal — deep-equal payloads collide, differing payloads
give differing keys. -/
theorem c3_rpc_query_key_tuple (t : String) (p1 p2 : Val) :
    useRpcQueryKey t p1 = [Val.str t, p1]
    ∧ createRpcQueryKey t p1 = useRpcQueryKey t p1
    ∧ (useRpcQueryKey t p1 = useRpcQueryKey t p2 ↔ p1 = p2) := by
  refine ⟨rfl, rfl, ?_⟩
  simp [useRpcQueryKey]

/-- C4 (counterexample): the key builder tests JavaScript truthiness, so
a field supplied with a falsy value is silently dropped: the differing
parameter records `{payload: 0}` and `{payload: ""}` produce the **same**
cache key, refuting "differing parameters yield differing keys" as
stated. -/
theorem c4_falsy_params_collide_counterexample :
    (⟨none, none, some (Val.num 0), none⟩ : HttpParams)
        ≠ ⟨none, none, some (Val.str ""), none⟩
    ∧ httpQueryKey "users" "getUser" ⟨none, none, some (Val.num 0), none⟩
        = httpQueryKey "users" "getUser" ⟨none, none, some (Val.str ""), none⟩ := by
  decide

/-- C4 (amended): the synthesized key starts with the fixed prefix
`["httpApi", group, endpoint]`, followed only by the label/value segments
of the truthy-supplied fields of `{path, urlParams, payload, headers}`
in that declared order; two keys for the same endpoint are equal exactly
when the supplied parameters agree after treating falsy-supplied fields
as absent. -/
theorem c4_amended_http_query_key (g e : String) (p q : HttpParams) :
    (httpQueryKey g e p).take 3 = [Val.str "httpApi", Val.str g, Val.str e]
    ∧ httpQueryKey g e p
        = [Val.str "httpApi", Val.str g, Val.str e]
          ++ fieldSegment "path" p.path ++ fieldSegment "urlParams" p.urlParams
          ++ fieldSegment "payload" p.payload ++ fieldSegment "headers" p.headers
    ∧ (httpQueryKey g e p = httpQueryKey g e q
        ↔ normalizeParams p = normalizeParams q) := by
  refine ⟨rfl, by simp [httpQueryKey], ?_⟩
  constructor
  · intro h
    have h3 : (httpQueryKey g e p).drop 3 = (httpQueryKey g e q).drop 3 := by rw [h]
    rw [httpQueryKey_drop_three, httpQueryKey_drop_three] at h3
    have hp := parseKeySuffix_fieldSegments p.path p.urlParams p.payload p.headers
    have hq := parseKeySuffix_fieldSegments q.path q.urlParams q.payload q.headers
    have := congrArg parseKeySuffix h3
    rw [hp, hq] at this
    simpa [normalizeParams] using this
  · intro h
    rw [← httpQueryKey_normalize g e p, ← httpQueryKey_normalize g e q, h]

/-- C5: when the RPC client-service tag cannot be resolved from the
dependency-injection context, `useRpcQuery`'s query body fails with a
defect (`Effect.die`), carrying no expected failure of the procedure's
declared error type — so wiring failures are distinguishable from every
business-level failure. -/
theorem c5_rpc_missing_service_dies (ctx : RpcContext) (tagKey proc : String)
    (payload : Val) (h : lookupTag ctx tagKey = none) :
    rpcQueryFnExit ctx tagKey proc payload
        = .failure (.dieC (Val.str "TasksClient service not found"))
    ∧ CauseV.failuresOf (.dieC (Val.str "TasksClient service not found")) = []
    ∧ CauseV.hasDefect (.dieC (Val.str "TasksClient service not found")) = true := by
  have h1 : getServiceExit ctx tagKey = .failure (.failC noSuchElementVal) := by
    simp [getServiceExit, h]
  refine ⟨?_, rfl, rfl⟩
  simp only [rpcQueryFnExit, h1]
  rfl

/-- C5 witness: the empty context resolves no tag, and the query body
dies. -/
theorem c5_rpc_missing_service_dies_witness :
    rpcQueryFnExit [] "TodoRpcClient" "getTodo" (Val.num 1)
        = .failure (.dieC (Val.str "TasksClient service not found")) :=
  (c5_rpc_missing_service_dies [] "TodoRpcClient" "getTodo" (Val.num 1) rfl).1

/-- C6 (spec-modelled, implementation absent from src): awaiting the
mutation hook's `mutateAsync`-style entry point yields the raw `Exit` of
the underlying effect — `Exit.success` with the value on success,
`Exit.failure` with the full cause on failure — and the promise never
rejects, so no further unwrapping is required. -/
theorem c6_mutateAsync_returns_raw_exit (v ev : Val) (e : EffectM) :
    mutateAsyncM (.succeedE v) = .resolvedExit (.success v)
    ∧ mutateAsyncM (.failE ev) = .resolvedExit (.failure (.failC ev))
    ∧ mutateAsyncM e = .resolvedExit (runExitM e)
    ∧ (mutateAsyncM e).isRejected = false :=
  ⟨rfl, rfl, rfl, rfl⟩

/-- C7 (counterexample): the factory's `clientEffect` is a plain effect,
not a memoized one — two invocations of the synthesized `queryFn`
execute the client construction twice, refuting "the client is not
rebuilt on every query or mutation invocation". -/
theorem c7_client_rebuilt_counterexample :
    buildsAfter (makeHttpApiQueryFactory ⟨"https://api.example.com", none⟩) 2 = 2
    ∧ ¬ buildsAfter (makeHttpApiQueryFactory ⟨"https://api.example.com", none⟩) 2 ≤ 1 := by
  decide

/-- C7 (amended): the connection options are captured once at
factory-construction time into the single shared `clientEffect`, whose
lazy execution always constructs the client from those captured options
(construction alone performs no build); the effect is not memoized, so
each of `n` query invocations re-executes it — `n` invocations perform
exactly `n` client builds. -/
theorem c7_amended_options_captured_once_not_memoized (o : ConnOptions) (n b : Nat) :
    (makeHttpApiQueryFactory o).clientOptions = o
    ∧ (runClientEffect (makeHttpApiQueryFactory o) b).1 = ⟨o⟩
    ∧ buildsAfter (makeHttpApiQueryFactory o) 0 = 0
    ∧ buildsAfter (makeHttpApiQueryFactory o) n = n := by
  refine ⟨rfl, rfl, rfl, ?_⟩
  induction n with
  | zero => rfl
  | succ k ih => simp [buildsAfter, runHttpQueryInvocation, runClientEffect, ih]

/-- C9: the HTTP mutation hook's synthesized `mutationFn` derives the
request's `path`, `urlParams`, `payload` and `headers` exclusively from
the `variables` object passed to `mutate`/`mutateAsync` — the per-call
options record cannot influence the request (it contributes only the
mandatory runtime and the pass-through mutation policy fields). -/
theorem c9_http_mutation_request_from_variables_only
    (opts opts2 : HttpMutationOpts) (v : MutationVariables) :
    (makeHttpApiMutationRecord opts).requestOf v
        = ⟨v.path, v.urlParams, v.payload, v.headers⟩
    ∧ (makeHttpApiMutationRecord opts).requestOf v
        = (makeHttpApiMutationRecord opts2).requestOf v
    ∧ (makeHttpApiMutationRecord opts).usedRuntime = opts.runtime
    ∧ (makeHttpApiMutationRecord opts).passedThrough = opts.policy :=
  ⟨rfl, rfl, rfl, rfl⟩

/-- C10 (counterexample): with `throwOnDefect` and a caller `throwOnError`
predicate, the synthesized wrapper passes the **`Option`-wrapped** value
`Either.getLeft(failureOrCause)` to the predicate, not the extracted
expected-error value itself: a predicate matching the bare error `"E"`
returns `false` through the wrapper even though it returns `true` on the
extracted value. -/
theorem c10_predicate_receives_wrapped_option_counterexample :
    wrapThrowOnErrorPred true samplePred (.causeJs (.failC (Val.str "E"))) = false
    ∧ wrapThrowOnErrorPred true samplePred (.causeJs (.failC (Val.str "E")))
        = samplePred (.val (mkSome (Val.str "E")))
    ∧ samplePred (.val (Val.str "E")) = true := by
  decide

/-- C10 (amended): when the caller's `throwOnError` is absent or `false`
the options record handed to the query-cache library carries
`throwOnError = false`; a supplied predicate is replaced by the wrapper,
which — under `throwOnDefect` — invokes the caller's predicate on
`Option.some` of the first expected failure when the rejected `Cause`
contains one, returns `true` for causes with no expected failure (pure
defects/interruptions), and passes non-`Cause` rejections to the
predicate unchanged. -/
theorem c10_amended_throwOnError_translation (tod : Bool) (f : JsThrow → Bool)
    (c : CauseV) (e v : Val) :
    synthThrowOnError tod .absent = .boolOpt false
    ∧ synthThrowOnError tod (.boolOpt false) = .boolOpt false
    ∧ synthThrowOnError tod (.predOpt f) = .predOpt (wrapThrowOnErrorPred tod f)
    ∧ (CauseV.firstFailure c = some e →
        wrapThrowOnErrorPred true f (.causeJs c) = f (.val (mkSome e)))
    ∧ (CauseV.firstFailure c = none →
        wrapThrowOnErrorPred true f (.causeJs c) = true)
    ∧ wrapThrowOnErrorPred true f (.val v) = f (.val v) := by
  refine ⟨rfl, rfl, rfl, ?_, ?_, rfl⟩
  · intro h
    simp [wrapThrowOnErrorPred, JsThrow.isCauseJs, failureOrCause, h,
      EitherV.isLeft, EitherV.getLeft]
  · intro h
    simp [wrapThrowOnErrorPred, JsThrow.isCauseJs, failureOrCause, h,
      EitherV.isLeft]

/-- C10 witness: the amended translation applied at a concrete failing
cause. -/
theorem c10_amended_throwOnError_translation_witness :
    wrapThrowOnErrorPred true samplePred (.causeJs (.failC (Val.str "x")))
        = samplePred (.val (mkSome (Val.str "x"))) :=
  ((c10_amended_throwOnError_translation true samplePred (.failC (Val.str "x"))
      (Val.str "x") Val.undef).2.2.2.1) rfl

/-- C8 (spec-modelled, implementation absent from src): tearing down the
owning reactive scope while a fetch is in flight emits the cooperative
interruption of the underlying effect and runs every registered
`onInterrupt` handler strictly before the teardown-complete event — the
handlers all occur in the trace before its final element, which is
`teardownComplete`. -/
theorem c8_interrupt_handlers_run_before_teardown (s : QueryScope) (h : String)
    (hf : s.inFlight = true) (hh : h ∈ s.interruptHandlers) :
    TeardownEvent.runHandler h ∈ (teardownTrace s).dropLast
    ∧ (teardownTrace s).getLast? = some TeardownEvent.teardownComplete
    ∧ TeardownEvent.interruptFiber ∈ teardownTrace s := by
  refine ⟨?_, ?_, ?_⟩
  · simp only [teardownTrace, hf, if_true, List.dropLast_append_cons]
    simp [hh]
  · simp [teardownTrace]
  · simp [teardownTrace, hf]

/-- C8 witness: a scope with one in-flight fetch and one registered
handler runs the handler before teardown completes. -/
theorem c8_interrupt_handlers_run_before_teardown_witness :
    TeardownEvent.runHandler "cleanup" ∈ (teardownTrace ⟨true, ["cleanup"]⟩).dropLast :=
  (c8_interrupt_handlers_run_before_teardown ⟨true, ["cleanup"]⟩ "cleanup" rfl
      (by decide)).1
